import Mathlib

/-!
# Conway's Game of Life for the Flipper Zero (`conway.c`)

A shallow embedding of the simulation / editor core of `conway.c`.

* `uint8_t` and `enum state` values are natural numbers; the places where the C code
  narrows an `int` to `uint8_t` carry an explicit `% 256`.
* `int` arithmetic (cursor deltas, neighbour offsets) is done in `Int`, as C's integer
  promotion does.
* `uint8_t grid[128][64]` is stored row-major, as C lays arrays out: the object
  `grid[i][j]` is byte `i * 64 + j` of the array.  The field `grid` is that byte
  sequence, so `grid[i][j]` with `j ≥ 64` denotes the byte `grid[i + 1][j - 64]`.
  Only the offsets below `128 * 64` exist; every access the program makes on a
  128 x 64 game stays below that.
* The variable-length array `uint8_t buffer[width][height]` of `simulate` is not
  initialised by the code; its initial content is an explicit argument, and
  `buffer[y][x]` is byte `y * height + x` of it.
-/

namespace ConwayC

/-! ## Data model -/

/-- The value of `paused` in `enum state`. -/
def paused : Nat := 0

/-- The value of `running` in `enum state`. -/
def running : Nat := 1

/-- The value of `stopped` in `enum state`. -/
def stopped : Nat := 4

/-- The struct `Conway` (the `gui` handle is left out). -/
structure Conway where
  state : Nat
  width : Nat
  height : Nat
  grid : Nat → Nat
  cursor_x : Nat
  cursor_y : Nat
  scale : Nat
  cursor_blink : Nat

/-- The byte offset of `grid[i][j]` inside `uint8_t grid[128][64]`. -/
def grid_index (i j : Nat) : Nat := i * 64 + j

/-- The value of `conway->grid[i][j]`. -/
def grid_at (c : Conway) (i j : Nat) : Nat := c.grid (grid_index i j)

/-- An array with the byte at offset `a` replaced by `v`. -/
def store (m : Nat → Nat) (a v : Nat) : Nat → Nat :=
  fun k => if k = a then v else m k

/-- The keys of `InputKey` (firmware header `input/input.h`). -/
inductive InputKey where
  | Up | Down | Right | Left | Ok | Back
  deriving DecidableEq

/-- The event types of `InputType` (firmware header `input/input.h`). -/
inductive InputType where
  | Press | Release | Short | Long | Repeat
  deriving DecidableEq

/-- The struct `InputEvent`, reduced to the two fields the program reads. -/
structure InputEvent where
  key : InputKey
  type : InputType
  deriving DecidableEq

/-! ## Operations -/

/-- The function `init_conway`.  The struct comes from `malloc` and `cursor_blink` is
never assigned, so its initial value `blink0` is arbitrary. -/
def init_conway (blink0 : Nat) : Conway :=
  { state := paused
    width := 128
    height := 64
    grid := fun _ => 0
    cursor_x := 0
    cursor_y := 0
    scale := 1
    cursor_blink := blink0 }

/-- The function `blink_cursor`. -/
def blink_cursor (c : Conway) : Conway :=
  { c with cursor_blink := Nat.xor c.cursor_blink 1 }

/-- The function `move_cursor`: the sums are `int`, the stores narrow to `uint8_t`. -/
def move_cursor (c : Conway) (dx dy : Int) : Conway :=
  let x : Int := (c.cursor_x : Int) + dx
  let y : Int := (c.cursor_y : Int) + dy
  let c1 : Conway :=
    if x ≥ 0 ∧ x < (c.width : Int) then { c with cursor_x := (x % 256).toNat } else c
  if y ≥ 0 ∧ y < (c1.height : Int) then { c1 with cursor_y := (y % 256).toNat } else c1

/-- The function `input_callback` for a non-NULL context. -/
def input_callback (event : InputEvent) (c : Conway) : Conway :=
  if event.key = InputKey.Back ∧ event.type = InputType.Long then
    { c with state := stopped }
  else if event.type ≠ InputType.Press ∨ event.type = InputType.Repeat then
    c
  else
    match event.key with
    | InputKey.Ok =>
        { c with grid := store c.grid (grid_index c.cursor_x c.cursor_y)
                           (Nat.xor (grid_at c c.cursor_x c.cursor_y) 1) }
    | InputKey.Up => move_cursor c 0 (-1)
    | InputKey.Down => move_cursor c 0 1
    | InputKey.Left => move_cursor c (-1) 0
    | InputKey.Right => move_cursor c 1 0
    | InputKey.Back => { c with state := Nat.xor c.state running }

/-- The table `offsets` of `count_neighbours`, as pairs `(x, y)`. -/
def offsets : List (Int × Int) :=
  [(-1, -1), (0, -1), (1, -1), (-1, 0), (1, 0), (-1, 1), (0, 1), (1, 1)]

/-- One iteration of the loop of `count_neighbours`. -/
def count_step (c : Conway) (x y : Nat) (neighours : Int) (pos : Int × Int) : Int :=
  if (c.height : Int) - 1 < (y : Int) + pos.2 ∨ (y : Int) + pos.2 < 0 then neighours
  else if (c.width : Int) - 1 < (x : Int) + pos.1 ∨ (x : Int) + pos.1 < 0 then neighours
  else if grid_at c ((y : Int) + pos.2).toNat ((x : Int) + pos.1).toNat = 1 then neighours + 1
  else neighours

/-- The function `count_neighbours`; `x` and `y` are the `uint8_t` arguments. -/
def count_neighbours (c : Conway) (x y : Nat) : Int :=
  offsets.foldl (count_step c x y) 0

/-- The body of the first double loop of `simulate`: `buffer[y][x]` is byte
`y * height + x` of `uint8_t buffer[width][height]`.  Nothing is written when the
count is 2. -/
def simulate_cell (c : Conway) (y x : Nat) (buffer : Nat → Nat) : Nat → Nat :=
  let neighours := count_neighbours c (x % 256) (y % 256)
  if neighours = 0 ∨ neighours = 1 then store buffer (y * c.height + x) 0
  else if neighours = 3 then store buffer (y * c.height + x) 1
  else if neighours ≥ 4 then store buffer (y * c.height + x) 0
  else buffer

/-- The first double loop of `simulate`, started on the buffer content `buffer`. -/
def simulate_fill (c : Conway) (buffer : Nat → Nat) : Nat → Nat :=
  (List.range c.height).foldl
    (fun b y => (List.range c.width).foldl (fun b1 x => simulate_cell c y x b1) b) buffer

/-- The second double loop of `simulate`: `grid[y][x] = buffer[y][x]` for `y < height - 1`
and `x < width - 1`. -/
def simulate_copy (c : Conway) (buffer : Nat → Nat) : Nat → Nat :=
  (List.range (c.height - 1)).foldl
    (fun g y => (List.range (c.width - 1)).foldl
      (fun g1 x => store g1 (grid_index y x) (buffer (y * c.height + x))) g) c.grid

/-- The function `simulate`; `buffer` is what the uninitialised array holds on entry. -/
def simulate (c : Conway) (buffer : Nat → Nat) : Conway :=
  if c.state = paused then c
  else { c with grid := simulate_copy c (simulate_fill c buffer) }

/-- The value the first loop of `simulate` writes for a neighbour count, if it writes. -/
def cell_rule (neighours : Int) : Option Nat :=
  if neighours = 0 ∨ neighours = 1 then some 0
  else if neighours = 3 then some 1
  else if neighours ≥ 4 then some 0
  else none

/-- The content of byte `a` of `buffer` after the rows `y < Y` of the first double loop of
`simulate` on a 128 x 64 game: row `y` writes bytes `64 * y .. 64 * y + 127`, so byte `a`
is written for `(x, y) = (a % 64 + 64, a / 64 - 1)` and then for `(a % 64, a / 64)`. -/
def fill_upto (c : Conway) (b : Nat → Nat) (Y a : Nat) : Nat :=
  let lo : Option Nat :=
    if a / 64 < Y then cell_rule (count_neighbours c (a % 64) (a / 64)) else none
  let hi : Option Nat :=
    if 1 ≤ a / 64 ∧ a / 64 - 1 < Y then
      cell_rule (count_neighbours c (a % 64 + 64) (a / 64 - 1))
    else none
  lo.getD (hi.getD (b a))

/-- The position `(x + pos.1, y + pos.2)` lies on the board. -/
def on_board (c : Conway) (x y : Nat) (pos : Int × Int) : Prop :=
  0 ≤ (x : Int) + pos.1 ∧ (x : Int) + pos.1 < (c.width : Int) ∧
    0 ≤ (y : Int) + pos.2 ∧ (y : Int) + pos.2 < (c.height : Int)

instance (c : Conway) (x y : Nat) (pos : Int × Int) : Decidable (on_board c x y pos) := by
  unfold on_board
  infer_instance

/-- The cell `count_neighbours` reads for the offset `pos`, namely
`grid[y + pos.2][x + pos.1]`. -/
def cell_read (c : Conway) (x y : Nat) (pos : Int × Int) : Nat :=
  grid_at c ((y : Int) + pos.2).toNat ((x : Int) + pos.1).toNat

/-- The neighbour count as the specification words it: the number of offsets in
`{-1,0,1} x {-1,0,1}` other than `(0,0)` that stay on the board and whose cell is 1. -/
def neighbor_count (c : Conway) (x y : Nat) : Nat :=
  (((({-1, 0, 1} : Finset Int) ×ˢ ({-1, 0, 1} : Finset Int)).erase (0, 0)).filter
    (fun pos => on_board c x y pos ∧ cell_read c x y pos = 1)).card

/-- The states the program can be in: `init_conway`, then any sequence of input events,
`blink_cursor` calls and `simulate` calls (each with whatever its buffer holds). -/
inductive Reachable : Conway → Prop
  | init (blink0 : Nat) : Reachable (init_conway blink0)
  | input (event : InputEvent) (c : Conway) : Reachable c → Reachable (input_callback event c)
  | blink (c : Conway) : Reachable c → Reachable (blink_cursor c)
  | sim (buffer : Nat → Nat) (c : Conway) : Reachable c → Reachable (simulate c buffer)

/-- A 128 x 64 game in state `running` whose grid bytes are all 1. -/
def full_board : Conway :=
  { init_conway 0 with state := running, grid := fun _ => 1 }

/-- The cursor invariant: the board is 128 x 64 and the cursor is on it. -/
def cursor_ok (c : Conway) : Prop :=
  c.width = 128 ∧ c.height = 64 ∧ c.cursor_x < 128 ∧ c.cursor_y < 64

/-- A 128 x 64 game in state `running` with the cursor at the origin, in which exactly
the cells `grid[i][j]` with `(i, j)` in `cells` are 1 and all other bytes are 0. -/
def board (cells : List (Nat × Nat)) : Conway :=
  { init_conway 0 with
    state := running
    grid := fun a => if cells.any (fun p => decide (grid_index p.1 p.2 = a)) then 1 else 0 }

/-- The all-dead 128 x 64 game in state `running` with the cursor at `(cx, cy)`. -/
def dead_board (cx cy : Nat) : Conway :=
  { init_conway 0 with state := running, cursor_x := cx, cursor_y := cy }

/-- The event of a short press of the OK key. -/
def ok_press : InputEvent := ⟨InputKey.Ok, InputType.Press⟩

/-- The event of a short press of the Back key (the command ToggleRun). -/
def back_press : InputEvent := ⟨InputKey.Back, InputType.Press⟩

/-- The event of a long press of the Back key (the command Halt). -/
def back_long : InputEvent := ⟨InputKey.Back, InputType.Long⟩

/-- A buffer whose bytes are all 0. -/
def zero_buffer : Nat → Nat := fun _ => 0

/-- A buffer whose bytes are all 1. -/
def one_buffer : Nat → Nat := fun _ => 1

/-- The 128 x 64 game in state `stopped` whose only alive cell is `grid[0][0]`. -/
def stopped_board : Conway :=
  { board [(0, 0)] with state := stopped }

/-- The 128 x 64 game in state `paused` whose only alive cell is `grid[0][0]`. -/
def paused_board : Conway :=
  { board [(0, 0)] with state := paused }

/-- Successive calls of `simulate`, one for each entry of `buffers`, the entry being what
the uninitialised buffer holds at that call. -/
def simulate_many (c : Conway) (buffers : List (Nat → Nat)) : Conway :=
  buffers.foldl simulate c

/-- The index pair `(i, j)` of the read `conway->grid[i][j]` that `count_neighbours` makes
for the offset `pos`, if the two range tests let it through. -/
def read_index (c : Conway) (x y : Nat) (pos : Int × Int) : Option (Nat × Nat) :=
  if (c.height : Int) - 1 < (y : Int) + pos.2 ∨ (y : Int) + pos.2 < 0 then none
  else if (c.width : Int) - 1 < (x : Int) + pos.1 ∨ (x : Int) + pos.1 < 0 then none
  else some (((y : Int) + pos.2).toNat, ((x : Int) + pos.1).toNat)

/-- The index pairs `(i, j)` of all reads `conway->grid[i][j]` of one call
`count_neighbours(x, y)`, in order. -/
def count_reads (c : Conway) (x y : Nat) : List (Nat × Nat) :=
  offsets.filterMap (read_index c x y)

/-- The index pairs `(y, x)` of the assignments `grid[y][x] = buffer[y][x]` of the second
double loop of `simulate`, in order. -/
def copy_indices (c : Conway) : List (Nat × Nat) :=
  (List.range (c.height - 1)).flatMap
    (fun y => (List.range (c.width - 1)).map (fun x => (y, x)))

/-! ## Loops as closed forms -/

theorem store_apply (m : Nat → Nat) (a v k : Nat) :
    store m a v k = if k = a then v else m k := rfl

theorem simulate_cell_eq (c : Conway) (y x : Nat) (b : Nat → Nat) :
    simulate_cell c y x b =
      match cell_rule (count_neighbours c (x % 256) (y % 256)) with
      | some v => store b (y * c.height + x) v
      | none => b := by
  unfold simulate_cell cell_rule
  simp only
  split_ifs <;> rfl

/-- A loop `for (x = 0; x < n; x++)` whose body writes `w x` at `base + x`, or nothing. -/
theorem foldl_range_write (w : Nat → Option Nat) (base n : Nat) (m : Nat → Nat) (a : Nat) :
    (List.range n).foldl
        (fun b x => match w x with
          | some v => store b (base + x) v
          | none => b) m a
      = if base ≤ a ∧ a < base + n then (w (a - base)).getD (m a) else m a := by
  induction n with
  | zero =>
    have h0 : ¬ (base ≤ a ∧ a < base + 0) := by omega
    rw [List.range_zero, List.foldl_nil, if_neg h0]
  | succ n ih =>
    rw [List.range_succ, List.foldl_append, List.foldl_cons, List.foldl_nil]
    by_cases h : a = base + n
    · subst h
      cases hw : w n with
      | some v => simp [store_apply, hw]
      | none =>
        simp only [hw, ih]
        simp [hw]
    · have key : ∀ b : Nat → Nat,
          (match w n with
            | some v => store b (base + n) v
            | none => b) a = b a := by
        intro b
        cases w n with
        | some v => simp [store_apply, h]
        | none => rfl
      rw [key, ih]
      by_cases h1 : base ≤ a ∧ a < base + n
      · have h2 : base ≤ a ∧ a < base + (n + 1) := ⟨h1.1, by omega⟩
        rw [if_pos h1, if_pos h2]
      · have h2 : ¬ (base ≤ a ∧ a < base + (n + 1)) := by omega
        rw [if_neg h1, if_neg h2]

/-- One row of the first double loop of `simulate`, on a 128 x 64 game. -/
theorem fill_row_eq (c : Conway) (hw : c.width = 128) (hh : c.height = 64)
    (y : Nat) (hy : y < 64) (b : Nat → Nat) (a : Nat) :
    (List.range c.width).foldl (fun b1 x => simulate_cell c y x b1) b a =
      if y * 64 ≤ a ∧ a < y * 64 + 128 then
        (cell_rule (count_neighbours c (a - y * 64) y)).getD (b a)
      else b a := by
  have hf : (fun (b1 : Nat → Nat) (x : Nat) => simulate_cell c y x b1) =
      (fun b1 x =>
        match (fun x => cell_rule (count_neighbours c (x % 256) (y % 256))) x with
        | some v => store b1 (y * 64 + x) v
        | none => b1) := by
    funext b1 x
    rw [simulate_cell_eq, hh]
  rw [hf, hw, foldl_range_write]
  by_cases h : y * 64 ≤ a ∧ a < y * 64 + 128
  · have h1 : (a - y * 64) % 256 = a - y * 64 := by omega
    have h2 : y % 256 = y := by omega
    simp only [if_pos h, h1, h2]
  · simp only [if_neg h]

/-- The first double loop of `simulate` after `Y` rows, on a 128 x 64 game. -/
theorem fill_rows_eq (c : Conway) (hw : c.width = 128) (hh : c.height = 64)
    (b : Nat → Nat) (Y : Nat) (hY : Y ≤ 64) (a : Nat) :
    (List.range Y).foldl
        (fun b0 y => (List.range c.width).foldl (fun b1 x => simulate_cell c y x b1) b0) b a
      = fill_upto c b Y a := by
  induction Y generalizing a with
  | zero => simp [fill_upto]
  | succ Y ih =>
    rw [List.range_succ, List.foldl_append, List.foldl_cons, List.foldl_nil,
      fill_row_eq c hw hh Y (by omega), ih (by omega)]
    unfold fill_upto
    by_cases h1 : a / 64 = Y
    · subst h1
      have c1 : a / 64 * 64 ≤ a ∧ a < a / 64 * 64 + 128 := by omega
      have c2 : a - a / 64 * 64 = a % 64 := by omega
      rw [if_pos c1, c2]
      split_ifs <;> first | rfl | (exfalso; omega)
    · by_cases h2 : a / 64 = Y + 1
      · have c7 : Y = a / 64 - 1 := by omega
        subst c7
        have c1 : (a / 64 - 1) * 64 ≤ a ∧ a < (a / 64 - 1) * 64 + 128 := by omega
        have c2 : a - (a / 64 - 1) * 64 = a % 64 + 64 := by omega
        rw [if_pos c1, c2]
        split_ifs <;> first | rfl | (exfalso; omega)
      · have c1 : ¬ (Y * 64 ≤ a ∧ a < Y * 64 + 128) := by omega
        rw [if_neg c1]
        split_ifs <;> first | rfl | (exfalso; omega)

/-- One row of the second double loop of `simulate`, on a 128 x 64 game. -/
theorem copy_row_eq (c : Conway) (hw : c.width = 128) (hh : c.height = 64)
    (buffer : Nat → Nat) (y : Nat) (g : Nat → Nat) (a : Nat) :
    (List.range (c.width - 1)).foldl
        (fun g1 x => store g1 (grid_index y x) (buffer (y * c.height + x))) g a =
      if y * 64 ≤ a ∧ a < y * 64 + 127 then buffer a else g a := by
  have hf : (fun (g1 : Nat → Nat) (x : Nat) =>
        store g1 (grid_index y x) (buffer (y * c.height + x))) =
      (fun g1 x =>
        match (fun x => some (buffer (y * 64 + x))) x with
        | some v => store g1 (y * 64 + x) v
        | none => g1) := by
    funext g1 x
    rw [hh]
    rfl
  rw [hf, hw]
  have hgen := foldl_range_write (fun x => some (buffer (y * 64 + x))) (y * 64) (128 - 1) g a
  rw [hgen]
  by_cases h : y * 64 ≤ a ∧ a < y * 64 + 127
  · have h1 : y * 64 + (a - y * 64) = a := by omega
    have h2 : y * 64 ≤ a ∧ a < y * 64 + (128 - 1) := h
    simp only [if_pos h, if_pos h2, h1, Option.getD_some]
  · have h2 : ¬ (y * 64 ≤ a ∧ a < y * 64 + (128 - 1)) := h
    simp only [if_neg h, if_neg h2]

/-- The second double loop of `simulate` after `Y` rows, on a 128 x 64 game. -/
theorem copy_rows_eq (c : Conway) (hw : c.width = 128) (hh : c.height = 64)
    (buffer : Nat → Nat) (g : Nat → Nat) (Y : Nat) (a : Nat) :
    (List.range Y).foldl
        (fun g0 y => (List.range (c.width - 1)).foldl
          (fun g1 x => store g1 (grid_index y x) (buffer (y * c.height + x))) g0) g a
      = if 1 ≤ Y ∧ a < (Y - 1) * 64 + 127 then buffer a else g a := by
  induction Y generalizing a with
  | zero => simp
  | succ Y ih =>
    rw [List.range_succ, List.foldl_append, List.foldl_cons, List.foldl_nil,
      copy_row_eq c hw hh, ih]
    split_ifs <;> first | rfl | (exfalso; omega)

/-- The grid after `simulate`, on a 128 x 64 game that is not paused: the bytes below
4095 (the last one written is `grid[62][126]`) take the buffer content, the others keep
their value. -/
theorem simulate_grid_eq (c : Conway) (hw : c.width = 128) (hh : c.height = 64)
    (hs : c.state ≠ paused) (b : Nat → Nat) (a : Nat) :
    (simulate c b).grid a = if a < 4095 then fill_upto c b 64 a else c.grid a := by
  unfold simulate
  rw [if_neg hs]
  show simulate_copy c (simulate_fill c b) a = _
  unfold simulate_copy
  rw [copy_rows_eq c hw hh, hh]
  have hfill : simulate_fill c b a = fill_upto c b 64 a := by
    unfold simulate_fill
    rw [hh]
    exact fill_rows_eq c hw hh b 64 (le_refl _) a
  by_cases h : a < 4095
  · have h2 : 1 ≤ 64 - 1 ∧ a < (64 - 1 - 1) * 64 + 127 := by omega
    rw [if_pos h, if_pos h2, hfill]
  · have h2 : ¬ (1 ≤ 64 - 1 ∧ a < (64 - 1 - 1) * 64 + 127) := by omega
    rw [if_neg h, if_neg h2]

/-- The bytes `simulate` overwrites, on a 128 x 64 game that is not paused: byte `a` gets
the value written for `(x, y) = (a % 64, a / 64)`; when that count is 2, the value
written for `(a % 64 + 64, a / 64 - 1)`; when that count is 2 as well (or `a < 64`), the
value the uninitialised buffer held. -/
theorem simulate_grid_low (c : Conway) (hw : c.width = 128) (hh : c.height = 64)
    (hs : c.state ≠ paused) (b : Nat → Nat) (a : Nat) (ha : a < 4095) :
    (simulate c b).grid a =
      (cell_rule (count_neighbours c (a % 64) (a / 64))).getD
        ((if 1 ≤ a / 64 then cell_rule (count_neighbours c (a % 64 + 64) (a / 64 - 1))
          else none).getD (b a)) := by
  rw [simulate_grid_eq c hw hh hs, if_pos ha]
  unfold fill_upto
  have h1 : a / 64 < 64 := by omega
  have h2 : (1 ≤ a / 64 ∧ a / 64 - 1 < 64) ↔ 1 ≤ a / 64 := by omega
  simp only [if_pos h1, h2]

/-- The bytes `simulate` leaves alone, on a 128 x 64 game: everything from byte 4095 on,
that is `grid[63][63]` and all of `grid[64..127]`. -/
theorem simulate_grid_high (c : Conway) (hw : c.width = 128) (hh : c.height = 64)
    (b : Nat → Nat) (a : Nat) (ha : 4095 ≤ a) :
    (simulate c b).grid a = c.grid a := by
  by_cases hs : c.state = paused
  · unfold simulate
    rw [if_pos hs]
  · rw [simulate_grid_eq c hw hh hs, if_neg (by omega)]

/-! ## The neighbour count -/

theorem count_step_eq (c : Conway) (x y : Nat) (n : Int) (pos : Int × Int) :
    count_step c x y n pos =
      if on_board c x y pos ∧ cell_read c x y pos = 1 then n + 1 else n := by
  unfold count_step on_board cell_read
  split_ifs <;> first | rfl | (exfalso; omega)

theorem foldl_count_step (c : Conway) (x y : Nat) (l : List (Int × Int)) (n : Int) :
    l.foldl (count_step c x y) n =
      n + ((l.filter (fun pos => on_board c x y pos ∧ cell_read c x y pos = 1)).length : Int) := by
  induction l generalizing n with
  | nil => simp
  | cons pos l ih =>
    rw [List.foldl_cons, ih, count_step_eq, List.filter_cons]
    by_cases h : on_board c x y pos ∧ cell_read c x y pos = 1
    · simp only [h, and_self, if_true, decide_True, List.length_cons]
      push_cast
      ring
    · simp only [h, if_false, decide_False]
      simp

theorem count_neighbours_eq_filter (c : Conway) (x y : Nat) :
    count_neighbours c x y =
      ((offsets.filter
        (fun pos => on_board c x y pos ∧ cell_read c x y pos = 1)).length : Int) := by
  unfold count_neighbours
  rw [foldl_count_step]
  simp

theorem offsets_toFinset :
    offsets.toFinset = (({-1, 0, 1} : Finset Int) ×ˢ ({-1, 0, 1} : Finset Int)).erase (0, 0) := by
  decide

theorem offsets_nodup : offsets.Nodup := by decide

/-- In-range positions kept by the filter of `count_neighbours` are at most the
positions that stay on the board. -/
theorem count_neighbours_le_on_board (c : Conway) (x y : Nat) :
    count_neighbours c x y ≤
      ((offsets.filter (fun pos => on_board c x y pos)).length : Int) := by
  rw [count_neighbours_eq_filter, ← List.countP_eq_length_filter,
    ← List.countP_eq_length_filter]
  exact_mod_cast List.countP_mono_left (fun pos _ h => by simpa using (of_decide_eq_true h).1)

theorem on_board_corner (c : Conway) (x y : Nat) (hx : x = 0 ∨ x + 1 = c.width)
    (hy : y = 0 ∨ y + 1 = c.height) :
    (offsets.filter (fun pos => on_board c x y pos)).length ≤ 3 := by
  rw [← List.countP_eq_length_filter]
  rcases hx with hx | hx <;> rcases hy with hy | hy
  · calc List.countP (fun pos => decide (on_board c x y pos)) offsets
        ≤ List.countP (fun pos => decide (0 ≤ pos.1 ∧ 0 ≤ pos.2)) offsets :=
          List.countP_mono_left (fun pos _ h => by
            simp only [on_board, decide_eq_true_eq] at h ⊢
            omega)
      _ = 3 := by decide
  · calc List.countP (fun pos => decide (on_board c x y pos)) offsets
        ≤ List.countP (fun pos => decide (0 ≤ pos.1 ∧ pos.2 ≤ 0)) offsets :=
          List.countP_mono_left (fun pos _ h => by
            simp only [on_board, decide_eq_true_eq] at h ⊢
            omega)
      _ = 3 := by decide
  · calc List.countP (fun pos => decide (on_board c x y pos)) offsets
        ≤ List.countP (fun pos => decide (pos.1 ≤ 0 ∧ 0 ≤ pos.2)) offsets :=
          List.countP_mono_left (fun pos _ h => by
            simp only [on_board, decide_eq_true_eq] at h ⊢
            omega)
      _ = 3 := by decide
  · calc List.countP (fun pos => decide (on_board c x y pos)) offsets
        ≤ List.countP (fun pos => decide (pos.1 ≤ 0 ∧ pos.2 ≤ 0)) offsets :=
          List.countP_mono_left (fun pos _ h => by
            simp only [on_board, decide_eq_true_eq] at h ⊢
            omega)
      _ = 3 := by decide

/-! ## The cursor -/

theorem move_cursor_width (c : Conway) (dx dy : Int) : (move_cursor c dx dy).width = c.width := by
  unfold move_cursor
  simp only
  split_ifs <;> rfl

theorem move_cursor_height (c : Conway) (dx dy : Int) :
    (move_cursor c dx dy).height = c.height := by
  unfold move_cursor
  simp only
  split_ifs <;> rfl

theorem move_cursor_x (c : Conway) (dx dy : Int) :
    (move_cursor c dx dy).cursor_x =
      if 0 ≤ (c.cursor_x : Int) + dx ∧ (c.cursor_x : Int) + dx < (c.width : Int) then
        (((c.cursor_x : Int) + dx) % 256).toNat
      else c.cursor_x := by
  unfold move_cursor
  simp only
  split_ifs <;> rfl

theorem move_cursor_y (c : Conway) (dx dy : Int) :
    (move_cursor c dx dy).cursor_y =
      if 0 ≤ (c.cursor_y : Int) + dy ∧ (c.cursor_y : Int) + dy < (c.height : Int) then
        (((c.cursor_y : Int) + dy) % 256).toNat
      else c.cursor_y := by
  unfold move_cursor
  simp only
  split_ifs <;> rfl

/-- The cursor stays on the board under `move_cursor`. -/
theorem move_cursor_in_range (c : Conway) (dx dy : Int)
    (hw : c.width ≤ 255) (hh : c.height ≤ 255)
    (hx : c.cursor_x < c.width) (hy : c.cursor_y < c.height) :
    (move_cursor c dx dy).cursor_x < c.width ∧ (move_cursor c dx dy).cursor_y < c.height := by
  rw [move_cursor_x, move_cursor_y]
  constructor
  · split_ifs <;> omega
  · split_ifs <;> omega

theorem cursor_ok_move_cursor (c : Conway) (dx dy : Int) (h : cursor_ok c) :
    cursor_ok (move_cursor c dx dy) := by
  obtain ⟨hw, hh, hx, hy⟩ := h
  have hr := move_cursor_in_range c dx dy (by omega) (by omega) (by omega) (by omega)
  refine ⟨?_, ?_, ?_, ?_⟩
  · rw [move_cursor_width, hw]
  · rw [move_cursor_height, hh]
  · omega
  · omega

theorem cursor_ok_input_callback (event : InputEvent) (c : Conway) (h : cursor_ok c) :
    cursor_ok (input_callback event c) := by
  unfold input_callback
  split_ifs
  · exact h
  · exact h
  · split
    · exact h
    · exact cursor_ok_move_cursor c _ _ h
    · exact cursor_ok_move_cursor c _ _ h
    · exact cursor_ok_move_cursor c _ _ h
    · exact cursor_ok_move_cursor c _ _ h
    · exact h

theorem cursor_ok_simulate (c : Conway) (buffer : Nat → Nat) (h : cursor_ok c) :
    cursor_ok (simulate c buffer) := by
  unfold simulate
  split_ifs
  · exact h
  · exact h

theorem cursor_ok_of_reachable (c : Conway) (h : Reachable c) : cursor_ok c := by
  induction h with
  | init blink0 => exact ⟨rfl, rfl, Nat.zero_lt_succ _, Nat.zero_lt_succ _⟩
  | input event c _ ih => exact cursor_ok_input_callback event c ih
  | blink c _ ih => exact ih
  | sim buffer c _ ih => exact cursor_ok_simulate c buffer ih

/-! ## Claims -/

/-- C6: `count_neighbours(x, y)` is the number of offsets among the 8 vectors of
`{-1,0,1} x {-1,0,1}` other than `(0,0)` that stay on the board (`0 ≤ x+dx < width`,
`0 ≤ y+dy < height`, computed in `int`, so without 8-bit wrap-around) and whose cell
`grid[y+dy][x+dx]` is 1; an offset that leaves the board leaves the count as it is. -/
theorem count_neighbours_eq_neighbor_count (c : Conway) (x y : Nat) :
    count_neighbours c x y = (neighbor_count c x y : Int) ∧
      ∀ (n : Int) (pos : Int × Int), ¬ on_board c x y pos → count_step c x y n pos = n := by
  constructor
  · rw [count_neighbours_eq_filter]
    unfold neighbor_count
    rw [← offsets_toFinset,
      ← List.toFinset_card_of_nodup (offsets_nodup.filter _), List.toFinset_filter]
    simp
  · intro n pos h
    rw [count_step_eq, if_neg (fun hp => h hp.1)]


/-- C7: `count_neighbours` lies between 0 and 8, and at each of the four corner cells of
a board with `width, height ≥ 3` it is at most 3. -/
theorem count_neighbours_bounds (c : Conway) (x y : Nat) :
    (0 ≤ count_neighbours c x y ∧ count_neighbours c x y ≤ 8) ∧
      (3 ≤ c.width → 3 ≤ c.height →
        count_neighbours c 0 0 ≤ 3 ∧
        count_neighbours c (c.width - 1) 0 ≤ 3 ∧
        count_neighbours c 0 (c.height - 1) ≤ 3 ∧
        count_neighbours c (c.width - 1) (c.height - 1) ≤ 3) := by
  refine ⟨⟨?_, ?_⟩, ?_⟩
  · rw [count_neighbours_eq_filter]
    exact Int.natCast_nonneg _
  · rw [count_neighbours_eq_filter]
    have h := List.length_filter_le
      (fun pos => decide (on_board c x y pos ∧ cell_read c x y pos = 1)) offsets
    have h8 : offsets.length = 8 := rfl
    omega
  · intro hw hh
    have key : ∀ x y : Nat, (x = 0 ∨ x + 1 = c.width) → (y = 0 ∨ y + 1 = c.height) →
        count_neighbours c x y ≤ 3 := by
      intro x y hx hy
      have h1 := count_neighbours_le_on_board c x y
      have h2 := on_board_corner c x y hx hy
      omega
    exact ⟨key 0 0 (Or.inl rfl) (Or.inl rfl),
      key (c.width - 1) 0 (Or.inr (by omega)) (Or.inl rfl),
      key 0 (c.height - 1) (Or.inl rfl) (Or.inr (by omega)),
      key (c.width - 1) (c.height - 1) (Or.inr (by omega)) (Or.inr (by omega))⟩

/-- C7 at the board whose cells are all alive: the corner `(127, 63)` counts at most 3. -/
theorem count_neighbours_bounds_witness :
    (3 ≤ full_board.width ∧ 3 ≤ full_board.height) ∧
      count_neighbours full_board 127 63 ≤ 3 :=
  ⟨⟨by decide, by decide⟩,
    ((count_neighbours_bounds full_board 0 0).2 (by decide) (by decide)).2.2.2⟩

/-- C9: from a cursor on the board (`width` and `height` being `uint8_t` values),
`move_cursor(dx, dy)` leaves the cursor on the board for all deltas, in particular all
signed 8-bit ones; each axis is decided on its own: the new `cursor_x` is `cursor_x + dx`
when `0 ≤ cursor_x + dx < width` and the old `cursor_x` otherwise, and likewise for
`cursor_y` with `dy` and `height`. -/
theorem move_cursor_clamps (c : Conway) (dx dy : Int)
    (hw : c.width ≤ 255) (hh : c.height ≤ 255)
    (hx : c.cursor_x < c.width) (hy : c.cursor_y < c.height) :
    ((move_cursor c dx dy).cursor_x < (move_cursor c dx dy).width ∧
      (move_cursor c dx dy).cursor_y < (move_cursor c dx dy).height) ∧
    ((move_cursor c dx dy).cursor_x : Int) =
      (if 0 ≤ (c.cursor_x : Int) + dx ∧ (c.cursor_x : Int) + dx < (c.width : Int) then
        (c.cursor_x : Int) + dx else (c.cursor_x : Int)) ∧
    ((move_cursor c dx dy).cursor_y : Int) =
      (if 0 ≤ (c.cursor_y : Int) + dy ∧ (c.cursor_y : Int) + dy < (c.height : Int) then
        (c.cursor_y : Int) + dy else (c.cursor_y : Int)) := by
  refine ⟨?_, ?_, ?_⟩
  · rw [move_cursor_width, move_cursor_height]
    exact move_cursor_in_range c dx dy hw hh hx hy
  · rw [move_cursor_x]
    split_ifs <;> omega
  · rw [move_cursor_y]
    split_ifs <;> omega

/-- C9 at the bottom-right corner of the 128 x 64 board with the delta `(1, -1)`: the
x axis is blocked, the y axis still moves. -/
theorem move_cursor_clamps_witness :
    ((move_cursor { init_conway 0 with cursor_x := 127, cursor_y := 63 } 1 (-1)).cursor_x : Int)
        = 127 ∧
      ((move_cursor { init_conway 0 with cursor_x := 127, cursor_y := 63 } 1 (-1)).cursor_y : Int)
        = 62 :=
  (move_cursor_clamps { init_conway 0 with cursor_x := 127, cursor_y := 63 } 1 (-1)
    (by decide) (by decide) (by decide) (by decide)).2

/-- C10: in every state reachable from `init_conway` by input events, `blink_cursor` calls
and `simulate` calls, `cursor_x < width = 128` and `cursor_y < height = 64`, so the byte
`grid[cursor_x][cursor_y]` the OK press toggles lies inside `uint8_t grid[128][64]`. -/
theorem reachable_cursor_in_grid (c : Conway) (h : Reachable c) :
    (c.cursor_x < c.width ∧ c.width = 128) ∧ (c.cursor_y < c.height ∧ c.height = 64) ∧
      grid_index c.cursor_x c.cursor_y < 128 * 64 := by
  obtain ⟨hw, hh, hx, hy⟩ := cursor_ok_of_reachable c h
  refine ⟨⟨by omega, hw⟩, ⟨by omega, hh⟩, ?_⟩
  unfold grid_index
  omega

/-- C10 after a Left press, a Down press and an OK press from the initial state. -/
theorem reachable_cursor_in_grid_witness :
    grid_index
        (input_callback ⟨InputKey.Ok, InputType.Press⟩
          (input_callback ⟨InputKey.Down, InputType.Press⟩
            (input_callback ⟨InputKey.Left, InputType.Press⟩ (init_conway 0)))).cursor_x
        (input_callback ⟨InputKey.Ok, InputType.Press⟩
          (input_callback ⟨InputKey.Down, InputType.Press⟩
            (input_callback ⟨InputKey.Left, InputType.Press⟩ (init_conway 0)))).cursor_y
      < 128 * 64 :=
  (reachable_cursor_in_grid _
    (Reachable.input _ _ (Reachable.input _ _ (Reachable.input _ _ (Reachable.init 0))))).2.2

/-- C1, evaluated on the board whose only alive cell is `grid[63][63]` (last row): the cell
is alive, `count_neighbours(63, 63)` is 0, and after `simulate` in state `running` the
cell is still alive, whatever the buffer held. -/
theorem simulate_keeps_lone_cell_63_63 (buffer : Nat → Nat) :
    (board [(63, 63)]).state = running ∧
      grid_at (board [(63, 63)]) 63 63 = 1 ∧
      count_neighbours (board [(63, 63)]) 63 63 = 0 ∧
      grid_at (simulate (board [(63, 63)]) buffer) 63 63 = 1 := by
  refine ⟨rfl, by decide, by decide, ?_⟩
  show (simulate (board [(63, 63)]) buffer).grid (grid_index 63 63) = 1
  rw [simulate_grid_high _ rfl rfl buffer _ (by decide)]
  decide

/-- C2, evaluated on the board with `grid[1][1]`, `grid[1][2]`, `grid[1][3]` alive: the
middle cell is alive with `count_neighbours(2, 1) = 2`, and after `simulate` in state
`running` it holds the byte the uninitialised buffer held, so it is dead when that byte
is 0. -/
theorem simulate_two_neighbours_takes_buffer (buffer : Nat → Nat) :
    grid_at (board [(1, 1), (1, 2), (1, 3)]) 1 2 = 1 ∧
      count_neighbours (board [(1, 1), (1, 2), (1, 3)]) 2 1 = 2 ∧
      grid_at (simulate (board [(1, 1), (1, 2), (1, 3)]) buffer) 1 2 = buffer 66 ∧
      grid_at (simulate (board [(1, 1), (1, 2), (1, 3)]) (fun _ => 0)) 1 2 = 0 := by
  have key : ∀ b : Nat → Nat,
      (simulate (board [(1, 1), (1, 2), (1, 3)]) b).grid 66 = b 66 := by
    intro b
    rw [simulate_grid_low _ rfl rfl (by decide) b 66 (by decide)]
    have h1 : cell_rule (count_neighbours (board [(1, 1), (1, 2), (1, 3)]) (66 % 64) (66 / 64))
        = none := by decide
    have h2 : (if 1 ≤ 66 / 64 then
          cell_rule (count_neighbours (board [(1, 1), (1, 2), (1, 3)]) (66 % 64 + 64) (66 / 64 - 1))
        else none) = none := by decide
    rw [h1, h2]
    rfl
  exact ⟨by decide, by decide, key buffer, key _⟩

/-- C3, evaluated at the corner cursor `(127, 63)`: on the all-dead board an OK press
sets `grid[127][63]`, and after `simulate` in state `running` that cell is still 1. -/
theorem simulate_keeps_toggled_corner (buffer : Nat → Nat) :
    (∀ a, (dead_board 127 63).grid a = 0) ∧
      grid_at (input_callback ok_press (dead_board 127 63)) 127 63 = 1 ∧
      grid_at (simulate (input_callback ok_press (dead_board 127 63)) buffer) 127 63 = 1 := by
  refine ⟨fun _ => rfl, by decide, ?_⟩
  show (simulate (input_callback ok_press (dead_board 127 63)) buffer).grid
    (grid_index 127 63) = 1
  rw [simulate_grid_high _ rfl rfl buffer _ (by decide)]
  decide

/-- C4, evaluated on two 2 x 2 blocks.  For the block `grid[63..64][1..2]` the block cell
`grid[63][1]` is dead after `simulate` in state `running`, whatever the buffer held.
For the block `grid[1..2][1..2]` the dead cell `grid[1][3]` beside the block takes the
byte the uninitialised buffer held, so it is alive when that byte is 1. -/
theorem simulate_block_not_still (buffer : Nat → Nat) :
    (grid_at (board [(63, 1), (63, 2), (64, 1), (64, 2)]) 63 1 = 1 ∧
      grid_at (simulate (board [(63, 1), (63, 2), (64, 1), (64, 2)]) buffer) 63 1 = 0) ∧
    (grid_at (board [(1, 1), (1, 2), (2, 1), (2, 2)]) 1 3 = 0 ∧
      grid_at (simulate (board [(1, 1), (1, 2), (2, 1), (2, 2)]) buffer) 1 3 = buffer 67 ∧
      grid_at (simulate (board [(1, 1), (1, 2), (2, 1), (2, 2)]) (fun _ => 1)) 1 3 = 1) := by
  have key1 : (simulate (board [(63, 1), (63, 2), (64, 1), (64, 2)]) buffer).grid 4033 = 0 := by
    rw [simulate_grid_low _ rfl rfl (by decide) buffer 4033 (by decide)]
    have h1 : cell_rule (count_neighbours (board [(63, 1), (63, 2), (64, 1), (64, 2)])
        (4033 % 64) (4033 / 64)) = some 0 := by decide
    rw [h1]
    rfl
  have key2 : ∀ b : Nat → Nat,
      (simulate (board [(1, 1), (1, 2), (2, 1), (2, 2)]) b).grid 67 = b 67 := by
    intro b
    rw [simulate_grid_low _ rfl rfl (by decide) b 67 (by decide)]
    have h1 : cell_rule (count_neighbours (board [(1, 1), (1, 2), (2, 1), (2, 2)])
        (67 % 64) (67 / 64)) = none := by decide
    have h2 : (if 1 ≤ 67 / 64 then
          cell_rule (count_neighbours (board [(1, 1), (1, 2), (2, 1), (2, 2)])
            (67 % 64 + 64) (67 / 64 - 1))
        else none) = none := by decide
    rw [h1, h2]
    rfl
  exact ⟨⟨by decide, key1⟩, by decide, key2 buffer, key2 _⟩

/-- C5, evaluated on two blinkers.  For the line `grid[62][1]`, `grid[63][1]`, `grid[64][1]`
the centre `grid[63][1]` is dead after `simulate` in state `running`, whatever the buffer
held.  For the line `grid[1][1]`, `grid[2][1]`, `grid[3][1]` the centre `grid[2][1]` takes
the byte the uninitialised buffer held, so it is dead when that byte is 0. -/
theorem simulate_blinker_loses_centre (buffer : Nat → Nat) :
    (grid_at (board [(62, 1), (63, 1), (64, 1)]) 63 1 = 1 ∧
      grid_at (simulate (board [(62, 1), (63, 1), (64, 1)]) buffer) 63 1 = 0) ∧
    (grid_at (board [(1, 1), (2, 1), (3, 1)]) 2 1 = 1 ∧
      grid_at (simulate (board [(1, 1), (2, 1), (3, 1)]) buffer) 2 1 = buffer 129 ∧
      grid_at (simulate (board [(1, 1), (2, 1), (3, 1)]) (fun _ => 0)) 2 1 = 0) := by
  have key1 : (simulate (board [(62, 1), (63, 1), (64, 1)]) buffer).grid 4033 = 0 := by
    rw [simulate_grid_low _ rfl rfl (by decide) buffer 4033 (by decide)]
    have h1 : cell_rule (count_neighbours (board [(62, 1), (63, 1), (64, 1)])
        (4033 % 64) (4033 / 64)) = some 0 := by decide
    rw [h1]
    rfl
  have key2 : ∀ b : Nat → Nat,
      (simulate (board [(1, 1), (2, 1), (3, 1)]) b).grid 129 = b 129 := by
    intro b
    rw [simulate_grid_low _ rfl rfl (by decide) b 129 (by decide)]
    have h1 : cell_rule (count_neighbours (board [(1, 1), (2, 1), (3, 1)])
        (129 % 64) (129 / 64)) = none := by decide
    have h2 : (if 1 ≤ 129 / 64 then
          cell_rule (count_neighbours (board [(1, 1), (2, 1), (3, 1)])
            (129 % 64 + 64) (129 / 64 - 1))
        else none) = none := by decide
    rw [h1, h2]
    rfl
  exact ⟨⟨by decide, key1⟩, by decide, key2 buffer, key2 _⟩

/-- C8, evaluated at the cursor `(5, 0)`: after an OK press on the all-dead board the
toggled byte is `grid[5][0]`; `count_neighbours(4, 0)` is 0 although `(4, 0)` is a
neighbour of `(5, 0)`, and `count_neighbours(1, 5)` is 1 although `(1, 5)` is not. -/
theorem toggle_and_count_disagree :
    grid_at (input_callback ok_press (dead_board 5 0)) 5 0 = 1 ∧
      count_neighbours (input_callback ok_press (dead_board 5 0)) 4 0 = 0 ∧
      count_neighbours (input_callback ok_press (dead_board 5 0)) 1 5 = 1 := by
  refine ⟨by decide, by decide, by decide⟩

/-! ## Input events -/

theorem input_callback_ok (c : Conway) :
    input_callback ok_press c =
      { c with grid := store c.grid (grid_index c.cursor_x c.cursor_y)
                         (Nat.xor (grid_at c c.cursor_x c.cursor_y) 1) } := rfl

theorem input_callback_back_press (c : Conway) :
    input_callback back_press c = { c with state := Nat.xor c.state running } := rfl

theorem input_callback_back_long (c : Conway) :
    input_callback back_long c = { c with state := stopped } := rfl

theorem xor_one_twice (v : Nat) : Nat.xor (Nat.xor v 1) 1 = v :=
  Nat.xor_cancel_right 1 v

/-- C11: two successive OK press events (no `simulate` in between) leave the whole state
as it was: the cell under the cursor is back at its value, and no other cell, nor the
cursor, nor the run state has changed. -/
theorem toggle_twice_restores (c : Conway) :
    input_callback ok_press (input_callback ok_press c) = c := by
  rw [input_callback_ok, input_callback_ok]
  cases c with
  | mk st w h g cx cy sc bl =>
    simp only [Conway.mk.injEq, true_and, and_true, grid_at]
    funext k
    by_cases hk : k = grid_index cx cy
    · subst hk
      simp only [store_apply, if_true]
      exact xor_one_twice _
    · simp only [store_apply, if_neg hk]

/-- C12, evaluated at a Halt followed by a ToggleRun: the Halt sets the run state to
`stopped` (4), the Back press then changes it to 5, which is not `stopped`, so the
condition `state != stopped` of `game_loop` is true again. -/
theorem toggle_run_leaves_stopped (c : Conway) :
    (input_callback back_long c).state = stopped ∧
      (input_callback back_press (input_callback back_long c)).state = 5 ∧
      (input_callback back_press (input_callback back_long c)).state ≠ stopped := by
  refine ⟨rfl, ?_, ?_⟩
  · show Nat.xor stopped running = 5
    decide
  · show Nat.xor stopped running ≠ stopped
    decide

/-- C13: a ToggleRun command (Back key, Press event) takes `paused` to `running` and
`running` to `paused`, changes neither the grid nor the cursor, and two of them restore
the run state. -/
theorem toggle_run_flips (c : Conway) :
    (c.state = paused → (input_callback back_press c).state = running) ∧
      (c.state = running → (input_callback back_press c).state = paused) ∧
      ((input_callback back_press c).grid = c.grid ∧
        (input_callback back_press c).cursor_x = c.cursor_x ∧
        (input_callback back_press c).cursor_y = c.cursor_y) ∧
      (c.state = paused ∨ c.state = running →
        (input_callback back_press (input_callback back_press c)).state = c.state) := by
  refine ⟨?_, ?_, ⟨rfl, rfl, rfl⟩, ?_⟩
  · intro h
    show Nat.xor c.state running = running
    rw [h]
    decide
  · intro h
    show Nat.xor c.state running = paused
    rw [h]
    decide
  · intro _
    show Nat.xor (Nat.xor c.state 1) 1 = c.state
    exact xor_one_twice _

/-- C13 at the initial state, which is paused: one ToggleRun makes it running, two make
it paused again. -/
theorem toggle_run_flips_witness :
    (input_callback back_press (init_conway 0)).state = running ∧
      (input_callback back_press (input_callback back_press (init_conway 0))).state = paused :=
  ⟨(toggle_run_flips (init_conway 0)).1 rfl,
    (toggle_run_flips (init_conway 0)).2.2.2 (Or.inl rfl)⟩

/-- C14: a Halt command (Back key, Long event) sets the run state to `stopped` from every
value of the state field, is idempotent, and changes neither the grid nor the cursor. -/
theorem halt_stops (c : Conway) :
    (input_callback back_long c).state = stopped ∧
      input_callback back_long (input_callback back_long c) = input_callback back_long c ∧
      (input_callback back_long c).grid = c.grid ∧
      (input_callback back_long c).cursor_x = c.cursor_x ∧
      (input_callback back_long c).cursor_y = c.cursor_y :=
  ⟨rfl, rfl, rfl, rfl, rfl⟩

/-- C17: an event of type Repeat or Release, with any key, leaves the whole state
unchanged; and an event whose type is not Press that changes the state is the Long event
on the Back key. -/
theorem non_press_events_ignored (c : Conway) (event : InputEvent) :
    (event.type = InputType.Repeat ∨ event.type = InputType.Release →
        input_callback event c = c) ∧
      (event.type ≠ InputType.Press → input_callback event c ≠ c →
        event.key = InputKey.Back ∧ event.type = InputType.Long) := by
  have key : event.type ≠ InputType.Press →
      ¬ (event.key = InputKey.Back ∧ event.type = InputType.Long) →
      input_callback event c = c := by
    intro h1 h2
    unfold input_callback
    rw [if_neg h2, if_pos (Or.inl h1)]
  constructor
  · intro h
    apply key
    · rcases h with h | h <;> rw [h] <;> decide
    · rcases h with h | h <;> rw [h] <;> simp
  · intro h1 h2
    by_contra h3
    exact h2 (key h1 h3)

/-- C17 at a Release event of the Up key and at a Repeat event of the OK key in the
initial state. -/
theorem non_press_events_ignored_witness :
    input_callback ⟨InputKey.Up, InputType.Release⟩ (init_conway 0) = init_conway 0 ∧
      input_callback ⟨InputKey.Ok, InputType.Repeat⟩ (init_conway 0) = init_conway 0 :=
  ⟨(non_press_events_ignored (init_conway 0) ⟨InputKey.Up, InputType.Release⟩).1 (Or.inr rfl),
    (non_press_events_ignored (init_conway 0) ⟨InputKey.Ok, InputType.Repeat⟩).1 (Or.inl rfl)⟩

/-! ## Frame of `simulate` -/

theorem simulate_width (c : Conway) (b : Nat → Nat) : (simulate c b).width = c.width := by
  unfold simulate
  split_ifs <;> rfl

theorem simulate_height (c : Conway) (b : Nat → Nat) : (simulate c b).height = c.height := by
  unfold simulate
  split_ifs <;> rfl

theorem simulate_state (c : Conway) (b : Nat → Nat) : (simulate c b).state = c.state := by
  unfold simulate
  split_ifs <;> rfl

theorem simulate_cursor_x (c : Conway) (b : Nat → Nat) :
    (simulate c b).cursor_x = c.cursor_x := by
  unfold simulate
  split_ifs <;> rfl

theorem simulate_cursor_y (c : Conway) (b : Nat → Nat) :
    (simulate c b).cursor_y = c.cursor_y := by
  unfold simulate
  split_ifs <;> rfl

/-- Bytes from 4095 on survive any number of `simulate` calls on a 128 x 64 game. -/
theorem simulate_many_grid_high (buffers : List (Nat → Nat)) (c : Conway)
    (hw : c.width = 128) (hh : c.height = 64) (a : Nat) (ha : 4095 ≤ a) :
    (simulate_many c buffers).grid a = c.grid a := by
  induction buffers generalizing c with
  | nil => rfl
  | cons b bs ih =>
    show (simulate_many (simulate c b) bs).grid a = c.grid a
    rw [ih (simulate c b) (by rw [simulate_width, hw]) (by rw [simulate_height, hh]),
      simulate_grid_high c hw hh b a ha]

theorem count_neighbours_nonneg (c : Conway) (x y : Nat) : 0 ≤ count_neighbours c x y := by
  rw [count_neighbours_eq_filter]
  exact Int.natCast_nonneg _

theorem cell_rule_of_ne_two (n : Int) (h0 : 0 ≤ n) (h2 : n ≠ 2) :
    cell_rule n = some (if n = 3 then 1 else 0) := by
  unfold cell_rule
  split_ifs <;> first | rfl | (exfalso; omega)

/-- The generation step on a 128 x 64 game that is not paused: for `x < 64`, `y < 63` and
a count other than 2, `grid[y][x]` becomes 1 for a count of 3 and 0 otherwise. -/
theorem simulate_cell_value (c : Conway) (hw : c.width = 128) (hh : c.height = 64)
    (hp : c.state ≠ paused) (buffer : Nat → Nat) (x y : Nat) (hx : x < 64) (hy : y < 63)
    (hc : count_neighbours c x y ≠ 2) :
    grid_at (simulate c buffer) y x = if count_neighbours c x y = 3 then 1 else 0 := by
  show (simulate c buffer).grid (y * 64 + x) = _
  rw [simulate_grid_low c hw hh hp buffer (y * 64 + x) (by omega)]
  have h1 : (y * 64 + x) % 64 = x := by omega
  have h2 : (y * 64 + x) / 64 = y := by omega
  rw [h1, h2, cell_rule_of_ne_two _ (count_neighbours_nonneg c x y) hc]
  rfl

/-! ## Claims on `simulate` -/

/-- C15 fails for the run state `stopped`: on the board in state `stopped` whose only
alive cell is `grid[0][0]`, a call of `simulate` kills that cell, so the grid changes
although the run state is not `running`. -/
theorem simulate_advances_when_stopped :
    stopped_board.state = stopped ∧ stopped_board.state ≠ running ∧
      grid_at stopped_board 0 0 = 1 ∧
      grid_at (simulate stopped_board zero_buffer) 0 0 = 0 ∧
      (simulate stopped_board zero_buffer).grid ≠ stopped_board.grid := by
  have h : (simulate stopped_board zero_buffer).grid 0 = 0 := by
    rw [simulate_grid_low _ rfl rfl (by decide) zero_buffer 0 (by decide)]
    have h1 : cell_rule (count_neighbours stopped_board (0 % 64) (0 / 64)) = some 0 := by
      decide
    rw [h1]
    rfl
  refine ⟨rfl, by decide, by decide, h, ?_⟩
  intro hg
  have h2 : (simulate stopped_board zero_buffer).grid 0 = stopped_board.grid 0 := by rw [hg]
  rw [h] at h2
  revert h2
  decide

/-- C15 as amended: in a state whose run state is `paused`, a call of `simulate` leaves
the whole state (grid, cursor, run state) unchanged; in every other run state, `stopped`
included, `simulate` runs the generation step: the grid becomes the result of its two
loops, so that on a 128 x 64 game a cell `grid[y][x]` with `x < 64`, `y < 63` and a count
other than 2 becomes 1 for a count of 3 and 0 otherwise; in every state it leaves the
cursor and the run state unchanged. -/
theorem simulate_paused_unchanged (c : Conway) (buffer : Nat → Nat) :
    (c.state = paused → simulate c buffer = c) ∧
      (c.state ≠ paused →
        simulate c buffer = { c with grid := simulate_copy c (simulate_fill c buffer) } ∧
        (c.width = 128 → c.height = 64 →
          ∀ x y : Nat, x < 64 → y < 63 → count_neighbours c x y ≠ 2 →
            grid_at (simulate c buffer) y x =
              if count_neighbours c x y = 3 then 1 else 0)) ∧
      ((simulate c buffer).cursor_x = c.cursor_x ∧
        (simulate c buffer).cursor_y = c.cursor_y ∧
        (simulate c buffer).state = c.state) := by
  refine ⟨?_, ?_,
    simulate_cursor_x c buffer, simulate_cursor_y c buffer, simulate_state c buffer⟩
  · intro h
    unfold simulate
    rw [if_pos h]
  · intro h
    constructor
    · unfold simulate
      rw [if_neg h]
    · intro hw hh x y hx hy hc
      exact simulate_cell_value c hw hh h buffer x y hx hy hc

/-- C15 as amended, on the two boards whose only alive cell is `grid[0][0]` (count 0):
in state `paused` the call changes nothing and the cell stays alive; in state `stopped`
the generation step runs and the cell dies. -/
theorem simulate_paused_unchanged_witness :
    (grid_at paused_board 0 0 = 1 ∧ simulate paused_board zero_buffer = paused_board ∧
        grid_at (simulate paused_board zero_buffer) 0 0 = 1) ∧
      (grid_at stopped_board 0 0 = 1 ∧
        grid_at (simulate stopped_board zero_buffer) 0 0 = 0) :=
  ⟨⟨by decide, (simulate_paused_unchanged paused_board zero_buffer).1 rfl,
      congrArg (fun s => grid_at s 0 0)
        ((simulate_paused_unchanged paused_board zero_buffer).1 rfl)⟩,
    ⟨by decide,
      ((simulate_paused_unchanged stopped_board zero_buffer).2.1 (by decide)).2 rfl rfl 0 0
        (by decide) (by decide) (by decide)⟩⟩

/-- C16, evaluated on the board with `grid[1][1]` and `grid[1][3]` alive, in state
`running`: the cell `grid[1][2]` has count 2 and takes the byte the buffer held, so the
same grid gives 0 with a zero buffer and 1 with a buffer of ones. -/
theorem simulate_depends_on_buffer :
    (board [(1, 1), (1, 3)]).state = running ∧
      count_neighbours (board [(1, 1), (1, 3)]) 2 1 = 2 ∧
      grid_at (simulate (board [(1, 1), (1, 3)]) zero_buffer) 1 2 = 0 ∧
      grid_at (simulate (board [(1, 1), (1, 3)]) one_buffer) 1 2 = 1 := by
  have key : ∀ b : Nat → Nat, (simulate (board [(1, 1), (1, 3)]) b).grid 66 = b 66 := by
    intro b
    rw [simulate_grid_low _ rfl rfl (by decide) b 66 (by decide)]
    have h1 : cell_rule (count_neighbours (board [(1, 1), (1, 3)]) (66 % 64) (66 / 64))
        = none := by decide
    have h2 : (if 1 ≤ 66 / 64 then
          cell_rule (count_neighbours (board [(1, 1), (1, 3)]) (66 % 64 + 64) (66 / 64 - 1))
        else none) = none := by decide
    rw [h1, h2]
    rfl
  exact ⟨rfl, by decide, key zero_buffer, key one_buffer⟩

/-- C18: on a 128 x 64 game in state `running`, for `x < 64` and `y < 63` with
`count_neighbours(x, y) ≠ 2` on the grid before the call, `grid[y][x]` after `simulate`
is 1 if that count is 3 and 0 otherwise, whatever the buffer held. -/
theorem simulate_uses_old_counts (c : Conway) (hw : c.width = 128) (hh : c.height = 64)
    (hs : c.state = running) (buffer : Nat → Nat) (x y : Nat) (hx : x < 64) (hy : y < 63)
    (hc : count_neighbours c x y ≠ 2) :
    grid_at (simulate c buffer) y x = if count_neighbours c x y = 3 then 1 else 0 := by
  have hp : c.state ≠ paused := by
    rw [hs]
    decide
  show (simulate c buffer).grid (y * 64 + x) = _
  rw [simulate_grid_low c hw hh hp buffer (y * 64 + x) (by omega)]
  have h1 : (y * 64 + x) % 64 = x := by omega
  have h2 : (y * 64 + x) / 64 = y := by omega
  rw [h1, h2, cell_rule_of_ne_two _ (count_neighbours_nonneg c x y) hc]
  rfl

/-- C18 on the board with `grid[1][1]`, `grid[1][2]`, `grid[1][3]` alive: the dead cell
`grid[0][2]` has count 3 and is alive after the call. -/
theorem simulate_uses_old_counts_witness :
    grid_at (simulate (board [(1, 1), (1, 2), (1, 3)]) zero_buffer) 0 2 = 1 :=
  simulate_uses_old_counts (board [(1, 1), (1, 2), (1, 3)]) rfl rfl rfl zero_buffer 2 0
    (by decide) (by decide) (by decide)

/-- C19: on a 128 x 64 game, in every run state, `simulate` leaves every cell
`grid[i][j]` with `64 ≤ i < 128` and `j < 64` unchanged, and so does any number of
`simulate` calls; a cell toggled by the editor with `cursor_x ≥ 64` keeps the toggled
value through all of them. -/
theorem simulate_keeps_upper_rows (c : Conway) (hw : c.width = 128) (hh : c.height = 64)
    (buffers : List (Nat → Nat)) :
    (∀ (buffer : Nat → Nat) (i j : Nat), 64 ≤ i → i < 128 → j < 64 →
        grid_at (simulate c buffer) i j = grid_at c i j) ∧
      (∀ i j : Nat, 64 ≤ i → i < 128 → j < 64 →
        grid_at (simulate_many c buffers) i j = grid_at c i j) ∧
      (64 ≤ c.cursor_x →
        grid_at (simulate_many (input_callback ok_press c) buffers) c.cursor_x c.cursor_y =
          Nat.xor (grid_at c c.cursor_x c.cursor_y) 1) := by
  refine ⟨?_, ?_, ?_⟩
  · intro buffer i j hi _ _
    exact simulate_grid_high c hw hh buffer (i * 64 + j) (by omega)
  · intro i j hi _ _
    exact simulate_many_grid_high buffers c hw hh (i * 64 + j) (by omega)
  · intro hx
    have h := simulate_many_grid_high buffers (input_callback ok_press c) hw hh
      (c.cursor_x * 64 + c.cursor_y) (by omega)
    show (simulate_many (input_callback ok_press c) buffers).grid
      (c.cursor_x * 64 + c.cursor_y) = _
    rw [h, input_callback_ok]
    show store c.grid (grid_index c.cursor_x c.cursor_y) _ (grid_index c.cursor_x c.cursor_y) = _
    rw [store_apply, if_pos rfl]

/-- C19 on the all-dead board with the cursor at `(100, 10)`: the cell the OK press sets
is still 1 after three `simulate` calls. -/
theorem simulate_keeps_upper_rows_witness :
    grid_at (simulate_many (input_callback ok_press (dead_board 100 10))
      [zero_buffer, one_buffer, zero_buffer]) 100 10 = 1 :=
  (simulate_keeps_upper_rows (dead_board 100 10) rfl rfl
    [zero_buffer, one_buffer, zero_buffer]).2.2 (by decide)

/-! ## Array accesses -/

theorem count_step_read (c : Conway) (x y : Nat) (n : Int) (pos : Int × Int) :
    count_step c x y n pos =
      match read_index c x y pos with
      | none => n
      | some p => if grid_at c p.1 p.2 = 1 then n + 1 else n := by
  unfold count_step read_index
  split_ifs with h1 h2 h3
  · rfl
  · rfl
  · exact (if_pos h3).symm
  · exact (if_neg h3).symm

theorem foldl_count_step_reads (c : Conway) (x y : Nat) (l : List (Int × Int)) (n : Int) :
    l.foldl (count_step c x y) n =
      n + (((l.filterMap (read_index c x y)).filter
        (fun p => decide (grid_at c p.1 p.2 = 1))).length : Int) := by
  induction l generalizing n with
  | nil => simp
  | cons pos l ih =>
    rw [List.foldl_cons, ih, count_step_read, List.filterMap_cons]
    cases hr : read_index c x y pos with
    | none => rfl
    | some p =>
      simp only [List.filter_cons]
      by_cases hp : grid_at c p.1 p.2 = 1
      · simp only [hp, if_true, decide_True, List.length_cons]
        push_cast
        ring
      · simp only [hp, if_false, decide_False]
        simp

/-- The value of `count_neighbours` is the number of its reads that return 1. -/
theorem count_neighbours_eq_reads (c : Conway) (x y : Nat) :
    count_neighbours c x y =
      (((count_reads c x y).filter (fun p => decide (grid_at c p.1 p.2 = 1))).length : Int) := by
  unfold count_neighbours count_reads
  rw [foldl_count_step_reads]
  simp

theorem foldl_flatMap_eq {α β γ : Type} (f : γ → β → γ) (g : α → List β) (l : List α)
    (init : γ) :
    (l.flatMap g).foldl f init = l.foldl (fun acc a => (g a).foldl f acc) init := by
  induction l generalizing init with
  | nil => rfl
  | cons a l ih => rw [List.flatMap_cons, List.foldl_append, ih, List.foldl_cons]

/-- The second double loop of `simulate` performs the assignments listed by
`copy_indices`. -/
theorem simulate_copy_eq_indices (c : Conway) (buffer : Nat → Nat) :
    simulate_copy c buffer =
      (copy_indices c).foldl
        (fun g p => store g (grid_index p.1 p.2) (buffer (p.1 * c.height + p.2))) c.grid := by
  unfold simulate_copy copy_indices
  rw [foldl_flatMap_eq]
  simp only [List.foldl_map]

/-- On a 128 x 64 game every read of `count_neighbours` has `i < 64` and `j < 128`, so it
stays inside the 8192 bytes of `grid`. -/
theorem count_reads_in_array (c : Conway) (hw : c.width = 128) (hh : c.height = 64)
    (x y : Nat) (p : Nat × Nat) (hp : p ∈ count_reads c x y) :
    p.1 < 64 ∧ p.2 < 128 ∧ grid_index p.1 p.2 < 128 * 64 := by
  unfold count_reads at hp
  obtain ⟨pos, _, hpos⟩ := List.mem_filterMap.1 hp
  unfold read_index at hpos
  split_ifs at hpos with h1 h2
  have hp2 : p = (((y : Int) + pos.2).toNat, ((x : Int) + pos.1).toNat) :=
    (Option.some.inj hpos).symm
  subst hp2
  unfold grid_index
  simp only
  omega

/-- C20, evaluated on the all-dead 128 x 64 board in state `running` at `(x, y) = (64, 0)`:
`count_neighbours(64, 0)` reads `grid[0][65]`, the first loop of `simulate` writes
`buffer[0][64]` (it lands on the byte of `buffer[1][0]`), and the second loop assigns
`grid[0][64] = buffer[0][64]`; the second index is not below 64 in any of them. -/
theorem accesses_leave_declared_rows :
    ((dead_board 0 0).width = 128 ∧ (dead_board 0 0).height = 64) ∧
      ((0, 65) ∈ count_reads (dead_board 0 0) 64 0 ∧ ¬ (65 < 64)) ∧
      (simulate_cell (dead_board 0 0) 0 64 one_buffer = store one_buffer (0 * 64 + 64) 0 ∧
        0 * 64 + 64 = 1 * 64 + 0) ∧
      ((0, 64) ∈ copy_indices (dead_board 0 0) ∧ ¬ (64 < 64)) := by
  refine ⟨⟨rfl, rfl⟩, ⟨by decide, by decide⟩, ⟨?_, rfl⟩, ⟨?_, by decide⟩⟩
  · rw [simulate_cell_eq]
    have h : cell_rule (count_neighbours (dead_board 0 0) (64 % 256) (0 % 256)) = some 0 := by
      decide
    rw [h]
    rfl
  · exact List.mem_flatMap.2 ⟨0, List.mem_range.2 (by decide),
      List.mem_map.2 ⟨64, List.mem_range.2 (by decide), rfl⟩⟩

end ConwayC
